import Mathlib

/-!
Shallow embedding of the elora-web administrative console (two screens:
user roster at `src/app/(dashboard)/dashboard/page.tsx`, role roster with
permission-matrix editor in the second client component).

JavaScript objects keyed by module name are embedded as association lists
(`PermMap`) whose operations mirror object spread (`{...a, ...b}`) and
computed-key assignment (`{...o, [k]: v}`), including key insertion order.
Event handlers are embedded as pure state-transition functions; each
`await`ed HTTP call becomes an explicit `ApiResult` input, and the list of
`api.*` invocations appearing in a handler body is returned as an explicit
call trace, so "issues no request" is a statement about that trace.
-/

namespace Elora

/-- One module's four permission booleans (`PermissionSet` in the source). -/
structure PermissionSet where
  view : Bool
  create : Bool
  edit : Bool
  delete : Bool
deriving DecidableEq

/-- The four checkbox columns of the permissions matrix. -/
inductive PermAction where
  | view
  | create
  | edit
  | delete
deriving DecidableEq

/-- Read one boolean of a `PermissionSet` (the source's `ps[action]`). -/
def PermissionSet.get (ps : PermissionSet) : PermAction → Bool
  | .view => ps.view
  | .create => ps.create
  | .edit => ps.edit
  | .delete => ps.delete

/-- Computed-key update of a `PermissionSet` (the source's `{...ps, [action]: b}`). -/
def PermissionSet.set (ps : PermissionSet) (a : PermAction) (b : Bool) : PermissionSet :=
  match a with
  | .view => { ps with view := b }
  | .create => { ps with create := b }
  | .edit => { ps with edit := b }
  | .delete => { ps with delete := b }

/-- The all-false permission set `{ view: false, create: false, edit: false, delete: false }`. -/
def permAllFalse : PermissionSet :=
  { view := false, create := false, edit := false, delete := false }

/-- A JavaScript object mapping module names to permission sets
(`Record<string, PermissionSet>`), embedded as an association list in key
insertion order. -/
abbrev PermMap : Type := List (String × PermissionSet)

/-- Property read `pm[k]`: the value at the first occurrence of key `k`,
`none` when the key is absent (JavaScript `undefined`). -/
def lookupP : PermMap → String → Option PermissionSet
  | [], _ => none
  | (k, v) :: rest, key => if k = key then some v else lookupP rest key

/-- Object spread `{...d, ...s}`: keys of `d` in order, each overridden by
`s` where present, followed by the keys only `s` has. -/
def spreadMerge (d s : PermMap) : PermMap :=
  (d.map fun p =>
    match lookupP s p.1 with
    | some v => (p.1, v)
    | none => p)
  ++ s.filter fun p => (lookupP d p.1).isNone

/-- Computed-key assignment `{...pm, [key]: v}` (also `acc[key] = v` on a
fresh accumulator object): replaces the value in place when the key exists,
appends otherwise. -/
def setP (pm : PermMap) (key : String) (v : PermissionSet) : PermMap :=
  spreadMerge pm [(key, v)]

/-- `const MODULES = ["user", "role", "recce", "installation"]`. -/
def MODULES : List String := ["user", "role", "recce", "installation"]

/-- `generateDefaultPermissions`: `MODULES.reduce((acc, module) => {
acc[module] = {view:false, create:false, edit:false, delete:false}; return acc }, {})`. -/
def generateDefaultPermissions : PermMap :=
  MODULES.foldl (fun acc m => setP acc m permAllFalse) []

-- Lookup lemmas for the object-spread embedding.

theorem lookupP_append (a b : PermMap) (key : String) :
    lookupP (a ++ b) key =
      match lookupP a key with
      | some v => some v
      | none => lookupP b key := by
  induction a with
  | nil => rfl
  | cons p rest ih =>
    obtain ⟨k, v⟩ := p
    show lookupP ((k, v) :: (rest ++ b)) key = _
    by_cases h : k = key
    · simp [lookupP, h]
    · simpa [lookupP, h] using ih

theorem lookupP_mapOverride (d s : PermMap) (key : String) :
    lookupP
        (d.map fun p =>
          match lookupP s p.1 with
          | some v => (p.1, v)
          | none => p) key =
      match lookupP d key with
      | some v => some ((lookupP s key).getD v)
      | none => none := by
  induction d with
  | nil => rfl
  | cons p rest ih =>
    obtain ⟨k, v⟩ := p
    by_cases h : k = key
    · subst h
      cases hs : lookupP s k <;> simp [lookupP, hs]
    · cases hsk : lookupP s k <;> simpa [lookupP, h, hsk] using ih

theorem lookupP_filter_of_notin (d s : PermMap) (key : String)
    (hd : lookupP d key = none) :
    lookupP (s.filter fun p => (lookupP d p.1).isNone) key = lookupP s key := by
  induction s with
  | nil => rfl
  | cons p rest ih =>
    obtain ⟨k, v⟩ := p
    by_cases h : k = key
    · subst h
      simp [List.filter_cons, hd, lookupP]
    · by_cases hk : (lookupP d k).isNone
      · simpa [List.filter_cons, hk, lookupP, h] using ih
      · simpa [List.filter_cons, hk, lookupP, h] using ih

/-- Spread semantics at the level of property reads: in `{...d, ...s}` the
right operand wins, the left operand fills in the rest. -/
theorem lookupP_spreadMerge (d s : PermMap) (key : String) :
    lookupP (spreadMerge d s) key =
      match lookupP s key with
      | some v => some v
      | none => lookupP d key := by
  unfold spreadMerge
  rw [lookupP_append, lookupP_mapOverride]
  cases hd : lookupP d key with
  | some v =>
    cases hs : lookupP s key <;> simp [hs]
  | none =>
    rw [lookupP_filter_of_notin d s key hd]
    cases hs : lookupP s key <;> simp [hs]

/-- Computed-key assignment at the level of property reads. -/
theorem lookupP_setP (pm : PermMap) (key k : String) (v : PermissionSet) :
    lookupP (setP pm key v) k = if key = k then some v else lookupP pm k := by
  unfold setP
  rw [lookupP_spreadMerge]
  by_cases h : key = k
  · simp [lookupP, h]
  · simp [lookupP, h]

/-- A role record as loaded from `GET /roles` (`Role` in `types/auth`). -/
structure Role where
  _id : String
  name : String
  code : String
  permissions : PermMap
deriving DecidableEq

/-- The role editor's draft (`formData` state of the roles page). -/
structure RoleFormData where
  name : String
  code : String
  permissions : PermMap
deriving DecidableEq

/-- HTTP calls a roles-page handler body can issue through `api`. -/
inductive RoleApiCall where
  | getRoles
  | postRole (body : RoleFormData)
  | putRole (id : String) (body : RoleFormData)
  | deleteRole (id : String)
deriving DecidableEq

/-- `openCreateModal`: reset the draft to blanks and default permissions. -/
def openCreateModal : RoleFormData :=
  { name := "", code := "", permissions := generateDefaultPermissions }

/-- `openEditModal(role)`: seed the draft from the role, with
`{...generateDefaultPermissions(), ...role.permissions}`. -/
def openEditModal (role : Role) : RoleFormData :=
  { name := role.name
    code := role.code
    permissions := spreadMerge generateDefaultPermissions role.permissions }

/-- `togglePermission(module, action)`: rebuild the draft with
`{...prev.permissions, [module]: {...prev.permissions[module],
[action]: !prev.permissions[module][action]}}`. When the module has no
entry, `prev.permissions[module]` is `undefined` and the inner read throws
a `TypeError`, embedded as `none`. The handler body contains no `api.*`
call, so the returned trace is empty. -/
def togglePermission (fd : RoleFormData) (module : String) (action : PermAction) :
    Option (RoleFormData × List RoleApiCall) :=
  match lookupP fd.permissions module with
  | none => none
  | some ps =>
      some
        ({ fd with
            permissions := setP fd.permissions module (ps.set action (!ps.get action)) },
          [])

/-- The roles grid renders the Delete button for a role exactly when
`role.code !== "super_admin" && role.code !== "SUPER_ADMIN"`. -/
def showsDeleteControl (role : Role) : Bool :=
  role.code != "super_admin" && role.code != "SUPER_ADMIN"

/-- The role-code `<input>` has `disabled={!!editingRole}`. -/
def codeInputDisabled (editingRole : Option Role) : Bool :=
  editingRole.isSome

/-- ASCII characters matched by the `\s` class of the code input's
`replace(/\s+/g, "_")`. -/
def isJsWhitespace (c : Char) : Bool :=
  c == ' ' || c == '\t' || c == '\n' || c == '\r' ||
    c == Char.ofNat 11 || c == Char.ofNat 12

/-- Regex replace `/\s+/g → "_"` over a character list: each maximal
whitespace run yields a single underscore. `inRun` records whether the
previous character belonged to a run already replaced. -/
def replaceWsRunsAux : Bool → List Char → List Char
  | _, [] => []
  | inRun, c :: cs =>
      if isJsWhitespace c then
        if inRun then replaceWsRunsAux true cs
        else '_' :: replaceWsRunsAux true cs
      else c :: replaceWsRunsAux false cs

/-- `toUpperCase()` embedded character-wise. -/
def jsToUpper (s : String) : String :=
  String.mk (s.data.map Char.toUpper)

/-- `toLowerCase()` embedded character-wise. -/
def jsToLower (s : String) : String :=
  String.mk (s.data.map Char.toLower)

/-- Case-insensitive string comparison (compare after lowercasing). -/
def eqCaseInsensitive (a b : String) : Bool :=
  jsToLower a == jsToLower b

/-- The code input's `onChange` transform:
`e.target.value.toUpperCase().replace(/\s+/g, "_")`. -/
def transformRoleCode (s : String) : String :=
  String.mk (replaceWsRunsAux false (jsToUpper s).data)

/-- JavaScript `b || false` on an optional-chained boolean read
(`undefined` becomes `false`). -/
def jsOrFalse : Option Bool → Bool
  | some b => b || false
  | none => false

/-- The matrix checkbox's `checked` expression:
`formData.permissions[module]?.[action] || false`. -/
def checkboxChecked (pm : PermMap) (m : String) (a : PermAction) : Bool :=
  jsOrFalse ((lookupP pm m).map fun ps => ps.get a)

/-- The draft permission mapping has an entry for every known module. -/
def coversModules (pm : PermMap) : Prop :=
  ∀ m ∈ MODULES, (lookupP pm m).isSome = true

instance (pm : PermMap) : Decidable (coversModules pm) := by
  unfold coversModules
  infer_instance

/-- A user record as held in the page's `users` state: the server fields
joined with an optional populated role object. -/
structure User where
  _id : String
  name : String
  email : String
  role : Option Role
  isActive : Bool
deriving DecidableEq

/-- The user object inside a `POST /users` / `PUT /users/{id}` response
body (`data.user`), before the client joins a role object onto it. -/
structure ServerUser where
  _id : String
  name : String
  email : String
  isActive : Bool
deriving DecidableEq

/-- The user editor's draft (`formData` state of the users page). -/
structure UserFormData where
  name : String
  email : String
  password : String
  roleId : String
deriving DecidableEq

/-- The request body built by `handleSubmit`; `password` is a key that may
be absent. -/
structure UserPayload where
  name : String
  email : String
  roleId : String
  password : Option String
deriving DecidableEq

/-- HTTP calls a users-page handler body can issue through `api`. -/
inductive UserApiCall where
  | getUsers
  | getRolesU
  | postUser (payload : UserPayload)
  | putUser (id : String) (payload : UserPayload)
  | deleteUser (id : String)
deriving DecidableEq

/-- Outcome of one `await`ed HTTP call: `ok` carries the parsed body,
`err` carries `error.response?.data?.message` (absent on network errors). -/
inductive ApiResult (α : Type) where
  | ok (val : α)
  | err (message : Option String)
deriving DecidableEq

/-- A `react-hot-toast` notification. -/
inductive Toast where
  | success (msg : String)
  | error (msg : String)
deriving DecidableEq

/-- JavaScript `m || fallback` on an optional string: `undefined` and `""`
are falsy. -/
def jsOrElse (m : Option String) (fallback : String) : String :=
  match m with
  | some s => if s = "" then fallback else s
  | none => fallback

/-- `GET /users` succeeds with either `{ users: User[] }` or a bare
`User[]`; `usersRes.data.users || usersRes.data` accepts both. -/
inductive UsersResponseData where
  | withUsersField (users : List User)
  | rawList (users : List User)
deriving DecidableEq

/-- `usersRes.data.users || usersRes.data` (an array, even empty, is
truthy, so a present `users` field always wins). -/
def extractUsers : UsersResponseData → List User
  | .withUsersField us => us
  | .rawList us => us

/-- The users page's state hooks. -/
structure UserScreenState where
  users : List User
  roles : List Role
  isLoading : Bool
  error : String
  isModalOpen : Bool
  isSubmitting : Bool
  editingUser : Option User
  formData : UserFormData
deriving DecidableEq

/-- The `useState` initial values of the users page. -/
def initialUserScreenState : UserScreenState :=
  { users := []
    roles := []
    isLoading := true
    error := ""
    isModalOpen := false
    isSubmitting := false
    editingUser := none
    formData := { name := "", email := "", password := "", roleId := "" } }

/-- `fetchData`: `Promise.all([api.get("/users"), api.get("/roles")])`.
The destructuring resolves only when both succeed; if either rejects the
`catch` sets the banner and toasts, leaving both lists untouched. -/
def fetchData (s : UserScreenState)
    (usersRes : ApiResult UsersResponseData) (rolesRes : ApiResult (List Role)) :
    UserScreenState × List Toast :=
  match usersRes, rolesRes with
  | .ok u, .ok r =>
      ({ s with users := extractUsers u, roles := r, isLoading := false }, [])
  | .ok _, .err _ =>
      ({ s with error := "Failed to load data. Please check permissions.", isLoading := false },
        [Toast.error "Could not load users."])
  | .err _, _ =>
      ({ s with error := "Failed to load data. Please check permissions.", isLoading := false },
        [Toast.error "Could not load users."])

/-- The payload of `handleSubmit`: `{ name, email, roleId }`, plus
`payload.password = formData.password` only when `formData.password` is
truthy (non-empty). -/
def buildUserPayload (fd : UserFormData) : UserPayload :=
  { name := fd.name
    email := fd.email
    roleId := fd.roleId
    password := if fd.password = "" then none else some fd.password }

/-- `{...savedUser, role: roles.find(r => r._id === payload.roleId)}`. -/
def joinWithRole (su : ServerUser) (roles : List Role) (roleId : String) : User :=
  { _id := su._id
    name := su.name
    email := su.email
    isActive := su.isActive
    role := roles.find? fun r => r._id == roleId }

/-- The users page's `handleSubmit` after `e.preventDefault()`: one `PUT`
when `editingUser` is set, else one `POST`; on success splice the joined
record into `users` and close the modal; on failure only toast; `finally`
clears `isSubmitting`. Returns (new state, toasts, call trace). -/
def handleSubmit (s : UserScreenState) (apiResult : ApiResult ServerUser) :
    UserScreenState × List Toast × List UserApiCall :=
  let payload := buildUserPayload s.formData
  match s.editingUser with
  | some eu =>
      match apiResult with
      | .ok savedUser =>
          let updatedUserWithRole := joinWithRole savedUser s.roles payload.roleId
          ({ s with
              users := s.users.map fun u =>
                if u._id == eu._id then updatedUserWithRole else u
              isModalOpen := false
              isSubmitting := false },
            [Toast.success "User updated successfully!"],
            [UserApiCall.putUser eu._id payload])
      | .err m =>
          ({ s with isSubmitting := false },
            [Toast.error (jsOrElse m "Operation failed")],
            [UserApiCall.putUser eu._id payload])
  | none =>
      match apiResult with
      | .ok savedUser =>
          let newUserWithRole := joinWithRole savedUser s.roles payload.roleId
          ({ s with
              users := s.users ++ [newUserWithRole]
              isModalOpen := false
              isSubmitting := false },
            [Toast.success "User created successfully!"],
            [UserApiCall.postUser payload])
      | .err m =>
          ({ s with isSubmitting := false },
            [Toast.error (jsOrElse m "Operation failed")],
            [UserApiCall.postUser payload])

/-- The users page's `handleDelete(userId)`: declined confirm returns
before any call; confirmed success filters `users` by `_id !== userId`;
confirmed failure only toasts. -/
def handleDelete (s : UserScreenState) (userId : String) (confirmed : Bool)
    (apiResult : ApiResult Unit) :
    UserScreenState × List Toast × List UserApiCall :=
  if confirmed then
    match apiResult with
    | .ok _ =>
        ({ s with users := s.users.filter fun u => u._id != userId },
          [Toast.success "User deleted successfully"],
          [UserApiCall.deleteUser userId])
    | .err _ =>
        (s, [Toast.error "Failed to delete user"], [UserApiCall.deleteUser userId])
  else
    (s, [], [])

/-- The roster's role column: `{user.role?.name || "No Role"}`. -/
def roleLabel (u : User) : String :=
  jsOrElse ((u.role).map fun r => r.name) "No Role"

theorem PermissionSet.get_set_same (ps : PermissionSet) (a : PermAction) (b : Bool) :
    (ps.set a b).get a = b := by
  cases a <;> rfl

theorem PermissionSet.get_set_other (ps : PermissionSet) (a a' : PermAction) (b : Bool)
    (h : a' ≠ a) : (ps.set a b).get a' = ps.get a' := by
  cases a <;> cases a' <;> first | rfl | exact absurd rfl h

/-- C1: the spec claims the delete control is suppressed whenever the
role's code matches the reserved super-admin code case-insensitively; the
render guard compares only against the two exact spellings "super_admin"
and "SUPER_ADMIN", so a role whose code is "Super_Admin" still shows the
delete control. -/
theorem c1_counterexample :
    ¬ (∀ r : Role, eqCaseInsensitive r.code "super_admin" = true →
        showsDeleteControl r = false) := by
  intro h
  have hc :=
    h { _id := "r1", name := "Super Admin", code := "Super_Admin", permissions := [] }
      (by decide)
  exact absurd hc (by decide)

/-- C1 (amended): the role screen's render exposes no delete control for a
role exactly when the role's code is the exact string "super_admin" or the
exact string "SUPER_ADMIN"; any other casing of the reserved code exposes
the control. -/
theorem c1_delete_guard_exact (r : Role) :
    showsDeleteControl r = false ↔ r.code = "super_admin" ∨ r.code = "SUPER_ADMIN" := by
  unfold showsDeleteControl
  by_cases h1 : r.code = "super_admin"
  · simp [h1]
  · by_cases h2 : r.code = "SUPER_ADMIN"
    · simp [h1, h2]
    · simp [h1, h2]

/-- C2: opening the role editor on any stored role yields a draft whose
permission mapping has an entry for every module of `MODULES`; a module
absent from the stored record gets the all-false set, a module present in
the stored record keeps its stored value; the merge is a total function
(never throws), and the draft carries the role's name and code. -/
theorem c2_openEditModal_merge (role : Role) (m : String) (hm : m ∈ MODULES) :
    lookupP (openEditModal role).permissions m =
        some ((lookupP role.permissions m).getD permAllFalse)
      ∧ (lookupP role.permissions m = none →
          lookupP (openEditModal role).permissions m = some permAllFalse)
      ∧ (∀ ps, lookupP role.permissions m = some ps →
          lookupP (openEditModal role).permissions m = some ps)
      ∧ (openEditModal role).name = role.name
      ∧ (openEditModal role).code = role.code := by
  have hgen : lookupP generateDefaultPermissions m = some permAllFalse := by
    fin_cases hm <;> decide
  have hmain : lookupP (openEditModal role).permissions m =
      some ((lookupP role.permissions m).getD permAllFalse) := by
    show lookupP (spreadMerge generateDefaultPermissions role.permissions) m = _
    rw [lookupP_spreadMerge]
    cases h : lookupP role.permissions m <;> simp [hgen]
  refine ⟨hmain, ?_, ?_, rfl, rfl⟩
  · intro h
    rw [hmain, h]
    rfl
  · intro ps h
    rw [hmain, h]
    rfl

/-- C2 witness: a stored role knowing only the "user" module still yields
a draft entry for "recce", defaulted to all-false. -/
theorem c2_witness :
    lookupP (openEditModal
        { _id := "r1", name := "Staff", code := "STAFF",
          permissions := [("user", { view := true, create := false, edit := false, delete := false })] }).permissions
        "recce" =
      some ((lookupP
        [("user", { view := true, create := false, edit := false, delete := false })]
        "recce").getD permAllFalse) :=
  (c2_openEditModal_merge
    { _id := "r1", name := "Staff", code := "STAFF",
      permissions := [("user", { view := true, create := false, edit := false, delete := false })] }
    "recce" (by decide)).1

/-- C3: toggling (module, action) on a draft whose mapping has an entry for
that module flips exactly that boolean; every other action of the module,
every other module's entry, and the draft's name and code keep their prior
values; the handler issues no API call (empty call trace). -/
theorem c3_togglePermission_frame (fd : RoleFormData) (M : String) (A : PermAction)
    (ps : PermissionSet) (h : lookupP fd.permissions M = some ps) :
    ∃ fd', togglePermission fd M A = some (fd', ([] : List RoleApiCall))
      ∧ fd'.name = fd.name
      ∧ fd'.code = fd.code
      ∧ lookupP fd'.permissions M = some (ps.set A (!ps.get A))
      ∧ (ps.set A (!ps.get A)).get A = !ps.get A
      ∧ (∀ a, a ≠ A → (ps.set A (!ps.get A)).get a = ps.get a)
      ∧ (∀ m, m ≠ M → lookupP fd'.permissions m = lookupP fd.permissions m) := by
  refine ⟨{ fd with permissions := setP fd.permissions M (ps.set A (!ps.get A)) },
    ?_, rfl, rfl, ?_, ?_, ?_, ?_⟩
  · unfold togglePermission
    rw [h]
  · rw [lookupP_setP]
    simp
  · exact PermissionSet.get_set_same ps A (!ps.get A)
  · intro a ha
    exact PermissionSet.get_set_other ps A a (!ps.get A) ha
  · intro m hm
    rw [lookupP_setP]
    exact if_neg fun hMm => hm hMm.symm

/-- C3 witness: toggling ("user", view) on a concrete draft. -/
theorem c3_witness :
    ∃ fd', togglePermission
        { name := "Staff", code := "STAFF", permissions := [("user", permAllFalse)] }
        "user" PermAction.view = some (fd', ([] : List RoleApiCall))
      ∧ fd'.name = "Staff"
      ∧ lookupP fd'.permissions "user" =
          some (permAllFalse.set PermAction.view (!permAllFalse.get PermAction.view)) := by
  obtain ⟨fd', h1, h2, _, h4, _⟩ :=
    c3_togglePermission_frame
      { name := "Staff", code := "STAFF", permissions := [("user", permAllFalse)] }
      "user" PermAction.view permAllFalse (by decide)
  exact ⟨fd', h1, h2, h4⟩

/-- C4: when editing an existing user, `handleSubmit` sends exactly one
`PUT /users/{id}` whose body is `buildUserPayload formData`; with a blank
password the body is exactly `{ name, email, roleId }` with no password
key, and with a non-empty password the body carries it. -/
theorem c4_password_omission (s : UserScreenState) (eu : User)
    (he : s.editingUser = some eu) (res : ApiResult ServerUser) :
    (handleSubmit s res).2.2 = [UserApiCall.putUser eu._id (buildUserPayload s.formData)]
    ∧ (s.formData.password = "" →
        buildUserPayload s.formData =
          { name := s.formData.name, email := s.formData.email,
            roleId := s.formData.roleId, password := none })
    ∧ (s.formData.password ≠ "" →
        (buildUserPayload s.formData).password = some s.formData.password) := by
  refine ⟨?_, ?_, ?_⟩
  · unfold handleSubmit
    rw [he]
    cases res <;> rfl
  · intro h
    simp [buildUserPayload, h]
  · intro h
    simp [buildUserPayload, h]

/-- C4 witness: editing user "u1" with a blank password draft. -/
theorem c4_witness :
    (handleSubmit
        { initialUserScreenState with
            editingUser := some { _id := "u1", name := "Ada", email := "ada@x.com",
                                  role := none, isActive := true }
            formData := { name := "Ada", email := "ada@x.com", password := "", roleId := "r1" } }
        (ApiResult.err none)).2.2 =
      [UserApiCall.putUser "u1"
        (buildUserPayload { name := "Ada", email := "ada@x.com", password := "", roleId := "r1" })]
    ∧ buildUserPayload { name := "Ada", email := "ada@x.com", password := "", roleId := "r1" } =
        { name := "Ada", email := "ada@x.com", roleId := "r1", password := none } := by
  obtain ⟨h1, h2, _⟩ :=
    c4_password_omission
      { initialUserScreenState with
          editingUser := some { _id := "u1", name := "Ada", email := "ada@x.com",
                                role := none, isActive := true }
          formData := { name := "Ada", email := "ada@x.com", password := "", roleId := "r1" } }
      { _id := "u1", name := "Ada", email := "ada@x.com", role := none, isActive := true }
      rfl (ApiResult.err none)
  exact ⟨h1, h2 rfl⟩

/-- C5: a failed create/update leaves the user list, the modal-open flag,
the draft form data and the editing target untouched; the only visible
effect is one error toast carrying the server message when non-empty,
otherwise the fallback "Operation failed". -/
theorem c5_submit_failure (s : UserScreenState) (m : Option String) :
    (handleSubmit s (ApiResult.err m)).1.users = s.users
    ∧ (handleSubmit s (ApiResult.err m)).1.isModalOpen = s.isModalOpen
    ∧ (handleSubmit s (ApiResult.err m)).1.formData = s.formData
    ∧ (handleSubmit s (ApiResult.err m)).1.editingUser = s.editingUser
    ∧ (handleSubmit s (ApiResult.err m)).2.1 = [Toast.error (jsOrElse m "Operation failed")]
    ∧ (m = none → jsOrElse m "Operation failed" = "Operation failed")
    ∧ (∀ msg, m = some msg → msg ≠ "" → jsOrElse m "Operation failed" = msg) := by
  have hstate : (handleSubmit s (ApiResult.err m)).1 = { s with isSubmitting := false } := by
    unfold handleSubmit
    cases h : s.editingUser <;> rfl
  have htoast : (handleSubmit s (ApiResult.err m)).2.1 =
      [Toast.error (jsOrElse m "Operation failed")] := by
    unfold handleSubmit
    cases h : s.editingUser <;> rfl
  refine ⟨by rw [hstate], by rw [hstate], by rw [hstate], by rw [hstate], htoast, ?_, ?_⟩
  · intro h
    rw [h]
    rfl
  · intro msg h hne
    rw [h]
    simp [jsOrElse, hne]

/-- C5 witness: a rejected update with server message "Boom" leaves the
initial roster empty and surfaces "Boom". -/
theorem c5_witness :
    (handleSubmit initialUserScreenState (ApiResult.err (some "Boom"))).1.users = []
    ∧ jsOrElse (some "Boom") "Operation failed" = "Boom" := by
  obtain ⟨h1, _, _, _, _, _, h7⟩ := c5_submit_failure initialUserScreenState (some "Boom")
  exact ⟨h1.trans rfl, h7 "Boom" rfl (by decide)⟩

theorem filter_length_countP (l : List User) (userId : String) :
    (l.filter fun u => u._id != userId).length +
      l.countP (fun u => u._id == userId) = l.length := by
  induction l with
  | nil => rfl
  | cons u rest ih =>
    rw [List.filter_cons, List.countP_cons]
    by_cases hb : (u._id != userId) = true
    · rw [if_pos hb, if_neg]
      · simp only [List.length_cons]
        omega
      · simp only [bne_iff_ne, ne_eq] at hb
        simp [hb]
    · rw [if_neg hb, if_pos]
      · simp only [List.length_cons]
        omega
      · simp only [bne_iff_ne, ne_eq, not_not] at hb
        simp [hb]

/-- C6: a declined confirmation leaves the whole state unchanged with no
toast and no API call; a confirmed, successful delete removes exactly the
entries whose `_id` equals the given identifier — exactly one entry when
the roster holds the identifier once — and keeps every other entry, after
one `DELETE /users/{id}` call. -/
theorem c6_handleDelete (s : UserScreenState) (userId : String) (res : ApiResult Unit)
    (h : s.users.countP (fun u => u._id == userId) = 1) :
    handleDelete s userId false res = (s, [], [])
    ∧ (handleDelete s userId true (ApiResult.ok ())).1.users =
        s.users.filter (fun u => u._id != userId)
    ∧ ((handleDelete s userId true (ApiResult.ok ())).1.users).length + 1 = s.users.length
    ∧ (∀ u ∈ s.users, (u._id == userId) = false →
        u ∈ (handleDelete s userId true (ApiResult.ok ())).1.users)
    ∧ (∀ u ∈ (handleDelete s userId true (ApiResult.ok ())).1.users,
        u ∈ s.users ∧ (u._id == userId) = false)
    ∧ (handleDelete s userId true (ApiResult.ok ())).2.2 = [UserApiCall.deleteUser userId] := by
  have hus : (handleDelete s userId true (ApiResult.ok ())).1.users =
      s.users.filter (fun u => u._id != userId) := rfl
  refine ⟨rfl, hus, ?_, ?_, ?_, rfl⟩
  · rw [hus]
    have hlem := filter_length_countP s.users userId
    omega
  · intro u hu hne
    rw [hus]
    rw [List.mem_filter]
    exact ⟨hu, by simp [bne, hne]⟩
  · intro u hu
    rw [hus, List.mem_filter] at hu
    refine ⟨hu.1, ?_⟩
    have := hu.2
    simpa [bne] using this


/-- C6 witness: roster holding exactly one user "u1"; declining is a
no-op and a confirmed successful delete empties the roster. -/
theorem c6_witness :
    handleDelete
        { initialUserScreenState with
            users := [{ _id := "u1", name := "Ada", email := "ada@x.com",
                        role := none, isActive := true }] }
        "u1" false (ApiResult.ok ()) =
      ({ initialUserScreenState with
          users := [{ _id := "u1", name := "Ada", email := "ada@x.com",
                      role := none, isActive := true }] }, [], [])
    ∧ ((handleDelete
        { initialUserScreenState with
            users := [{ _id := "u1", name := "Ada", email := "ada@x.com",
                        role := none, isActive := true }] }
        "u1" true (ApiResult.ok ())).1.users).length + 1 = 1 := by
  obtain ⟨h1, _, h3, _⟩ :=
    c6_handleDelete
      { initialUserScreenState with
          users := [{ _id := "u1", name := "Ada", email := "ada@x.com",
                      role := none, isActive := true }] }
      "u1" (ApiResult.ok ()) (by decide)
  exact ⟨h1, h3⟩

/-- C7: on the initial load, if either of the two concurrent fetches
rejects, the banner is set to "Failed to load data. Please check
permissions.", an error toast is shown, and both lists stay empty; only
when both succeed are the lists populated from the two responses (and no
banner or toast is produced). -/
theorem c7_fetchData_joint (ur : ApiResult UsersResponseData) (rr : ApiResult (List Role)) :
    (((∃ m, ur = ApiResult.err m) ∨ (∃ m, rr = ApiResult.err m)) →
      (fetchData initialUserScreenState ur rr).1.users = []
      ∧ (fetchData initialUserScreenState ur rr).1.roles = []
      ∧ (fetchData initialUserScreenState ur rr).1.error =
          "Failed to load data. Please check permissions."
      ∧ (fetchData initialUserScreenState ur rr).2 = [Toast.error "Could not load users."])
    ∧ (∀ u rs, ur = ApiResult.ok u → rr = ApiResult.ok rs →
      (fetchData initialUserScreenState ur rr).1.users = extractUsers u
      ∧ (fetchData initialUserScreenState ur rr).1.roles = rs
      ∧ (fetchData initialUserScreenState ur rr).1.error = ""
      ∧ (fetchData initialUserScreenState ur rr).2 = []) := by
  constructor
  · rintro (⟨m, rfl⟩ | ⟨m, rfl⟩)
    · cases rr <;> exact ⟨rfl, rfl, rfl, rfl⟩
    · cases ur <;> exact ⟨rfl, rfl, rfl, rfl⟩
  · rintro u rs rfl rfl
    exact ⟨rfl, rfl, rfl, rfl⟩

/-- C7 witness: users request rejected, roles request succeeded. -/
theorem c7_witness :
    (fetchData initialUserScreenState (ApiResult.err none) (ApiResult.ok [])).1.users = []
    ∧ (fetchData initialUserScreenState (ApiResult.err none) (ApiResult.ok [])).1.error =
        "Failed to load data. Please check permissions." := by
  obtain ⟨h1, _, h3, _⟩ :=
    (c7_fetchData_joint (ApiResult.err none) (ApiResult.ok [])).1 (Or.inl ⟨none, rfl⟩)
  exact ⟨h1, h3⟩

theorem replaceWsRunsAux_skip (ws l : List Char)
    (h : ∀ c ∈ ws, isJsWhitespace c = true) :
    replaceWsRunsAux true (ws ++ l) = replaceWsRunsAux true l := by
  induction ws with
  | nil => rfl
  | cons c cs ih =>
    have hc := h c (List.mem_cons_self c cs)
    show replaceWsRunsAux true (c :: (cs ++ l)) = _
    simp only [replaceWsRunsAux, hc, if_true]
    exact ih fun d hd => h d (List.mem_cons_of_mem _ hd)

theorem replaceWsRunsAux_nonWs (b : Bool) (c : Char) (l : List Char)
    (hc : isJsWhitespace c = false) :
    replaceWsRunsAux b (c :: l) = c :: replaceWsRunsAux false l := by
  simp [replaceWsRunsAux, hc]

theorem replaceWsRunsAux_id (l : List Char)
    (h : ∀ c ∈ l, isJsWhitespace c = false) :
    replaceWsRunsAux false l = l := by
  induction l with
  | nil => rfl
  | cons c cs ih =>
    have hc := h c (List.mem_cons_self c cs)
    rw [replaceWsRunsAux_nonWs false c cs hc,
      ih fun d hd => h d (List.mem_cons_of_mem _ hd)]

/-- C8: the role-code keystroke transform uppercases the value and
collapses every whitespace run to one underscore: "field staff" becomes
"FIELD_STAFF"; a leading whitespace run (however long) contributes exactly
one underscore; non-whitespace characters pass through in place; an input
whose uppercased form has no whitespace is only uppercased; and the code
input is disabled exactly when a role is being edited. -/
theorem c8_roleCode_transform :
    transformRoleCode "field staff" = "FIELD_STAFF"
    ∧ (∀ ws l, ws ≠ [] → (∀ c ∈ ws, isJsWhitespace c = true) →
        replaceWsRunsAux false (ws ++ l) = '_' :: replaceWsRunsAux true l)
    ∧ (∀ b c l, isJsWhitespace c = false →
        replaceWsRunsAux b (c :: l) = c :: replaceWsRunsAux false l)
    ∧ (∀ s, (∀ c ∈ (jsToUpper s).data, isJsWhitespace c = false) →
        transformRoleCode s = jsToUpper s)
    ∧ (∀ r, codeInputDisabled (some r) = true)
    ∧ codeInputDisabled none = false := by
  refine ⟨by decide, ?_, replaceWsRunsAux_nonWs, ?_, fun r => rfl, rfl⟩
  · intro ws l hne h
    match ws with
    | c :: cs =>
      have hc := h c (List.mem_cons_self c cs)
      show replaceWsRunsAux false (c :: (cs ++ l)) = _
      simp only [replaceWsRunsAux, hc, if_true, Bool.false_eq_true, if_false]
      rw [replaceWsRunsAux_skip cs l fun d hd => h d (List.mem_cons_of_mem _ hd)]
  · intro s h
    show String.mk (replaceWsRunsAux false (jsToUpper s).data) = jsToUpper s
    rw [replaceWsRunsAux_id (jsToUpper s).data h]

/-- C8 witness: a two-space run before "A" yields a single underscore. -/
theorem c8_witness :
    replaceWsRunsAux false ([' ', ' '] ++ ['A']) = '_' :: replaceWsRunsAux true ['A']
    ∧ transformRoleCode "field staff" = "FIELD_STAFF" := by
  obtain ⟨h1, h2, -⟩ := c8_roleCode_transform
  exact ⟨h2 [' ', ' '] ['A'] (by decide) (by decide), h1⟩

/-- C9: a successful submission closes the modal and splices the server
record, joined with the loaded role whose `_id` equals the draft's
`roleId`, into the list: appended in create mode, substituted for every
entry carrying the edited user's identifier in update mode (entries with
other identifiers stay); when no loaded role matches, the joined `role` is
`none` and the roster renders the label "No Role". -/
theorem c9_submit_success (s : UserScreenState) (su : ServerUser) :
    (s.editingUser = none →
      (handleSubmit s (ApiResult.ok su)).1.users =
          s.users ++ [joinWithRole su s.roles s.formData.roleId]
      ∧ (handleSubmit s (ApiResult.ok su)).1.isModalOpen = false)
    ∧ (∀ eu, s.editingUser = some eu →
      (handleSubmit s (ApiResult.ok su)).1.users =
          s.users.map (fun u => if u._id == eu._id
            then joinWithRole su s.roles s.formData.roleId else u)
      ∧ (∀ u ∈ s.users, (u._id == eu._id) = false →
          u ∈ (handleSubmit s (ApiResult.ok su)).1.users)
      ∧ (handleSubmit s (ApiResult.ok su)).1.isModalOpen = false)
    ∧ (s.roles.find? (fun r => r._id == s.formData.roleId) = none →
      (joinWithRole su s.roles s.formData.roleId).role = none
      ∧ roleLabel (joinWithRole su s.roles s.formData.roleId) = "No Role") := by
  refine ⟨?_, ?_, ?_⟩
  · intro h
    constructor
    · unfold handleSubmit
      rw [h]
      rfl
    · unfold handleSubmit
      rw [h]
  · intro eu h
    have hmap : (handleSubmit s (ApiResult.ok su)).1.users =
        s.users.map (fun u => if u._id == eu._id
          then joinWithRole su s.roles s.formData.roleId else u) := by
      unfold handleSubmit
      rw [h]
      rfl
    refine ⟨hmap, ?_, ?_⟩
    · intro u hu hne
      rw [hmap]
      have hfix : (fun v : User => if v._id == eu._id
          then joinWithRole su s.roles s.formData.roleId else v) u = u := by
        simp [hne]
      exact hfix ▸ List.mem_map_of_mem _ hu
    · unfold handleSubmit
      rw [h]
  · intro h
    have hrole : (joinWithRole su s.roles s.formData.roleId).role = none := h
    refine ⟨hrole, ?_⟩
    show jsOrElse (((joinWithRole su s.roles s.formData.roleId).role).map fun r => r.name)
        "No Role" = "No Role"
    rw [hrole]
    rfl

/-- C9 witness: create mode from the initial state with an empty role
list; the saved record is appended and renders "No Role". -/
theorem c9_witness :
    (handleSubmit initialUserScreenState
        (ApiResult.ok { _id := "u9", name := "Ada", email := "ada@x.com",
                        isActive := true })).1.users =
      [] ++ [joinWithRole
        { _id := "u9", name := "Ada", email := "ada@x.com", isActive := true } [] ""]
    ∧ roleLabel (joinWithRole
        { _id := "u9", name := "Ada", email := "ada@x.com", isActive := true } [] "") =
      "No Role" := by
  obtain ⟨h1, -⟩ := (c9_submit_success initialUserScreenState
      { _id := "u9", name := "Ada", email := "ada@x.com", isActive := true }).1 rfl
  obtain ⟨-, h3⟩ := (c9_submit_success initialUserScreenState
      { _id := "u9", name := "Ada", email := "ada@x.com", isActive := true }).2.2 rfl
  exact ⟨h1, h3⟩

/-- C10: every role-draft producer keeps an entry for each module of
`MODULES` in the draft's permission mapping — the defaults, the create
draft, any edit draft, and any draft a toggle returns; under the
invariant, toggling a known module never hits a missing entry (no throw),
and whenever a module's entry exists the checkbox expression reads the
stored boolean, so its `|| false` fallback is never the value used. -/
theorem c10_module_invariant :
    coversModules generateDefaultPermissions
    ∧ coversModules openCreateModal.permissions
    ∧ (∀ role, coversModules (openEditModal role).permissions)
    ∧ (∀ fd M A fd' calls, coversModules fd.permissions →
        togglePermission fd M A = some (fd', calls) → coversModules fd'.permissions)
    ∧ (∀ fd M A, coversModules fd.permissions → M ∈ MODULES →
        (togglePermission fd M A).isSome = true)
    ∧ (∀ pm M A ps, lookupP pm M = some ps → checkboxChecked pm M A = ps.get A) := by
  have hgen : coversModules generateDefaultPermissions := by decide
  refine ⟨hgen, hgen, ?_, ?_, ?_, ?_⟩
  · intro role m hm
    show (lookupP (spreadMerge generateDefaultPermissions role.permissions) m).isSome = true
    rw [lookupP_spreadMerge]
    cases h : lookupP role.permissions m
    · exact hgen m hm
    · rfl
  · intro fd M A fd' calls hcov htog
    unfold togglePermission at htog
    cases h : lookupP fd.permissions M with
    | none =>
      rw [h] at htog
      exact absurd htog (by simp)
    | some ps =>
      rw [h] at htog
      have hpair := Option.some.inj htog
      have hfd' : fd' =
          { fd with permissions := setP fd.permissions M (ps.set A (!ps.get A)) } :=
        (congrArg Prod.fst hpair).symm
      intro m hm
      rw [hfd']
      show (lookupP (setP fd.permissions M (ps.set A (!ps.get A))) m).isSome = true
      rw [lookupP_setP]
      by_cases hMm : M = m
      · rw [if_pos hMm]
        rfl
      · rw [if_neg hMm]
        exact hcov m hm
  · intro fd M A hcov hM
    have hs := hcov M hM
    cases h : lookupP fd.permissions M with
    | none =>
      rw [h] at hs
      exact absurd hs (by simp)
    | some ps =>
      unfold togglePermission
      rw [h]
      rfl
  · intro pm M A ps h
    unfold checkboxChecked
    rw [h]
    show jsOrFalse (some (ps.get A)) = ps.get A
    show (ps.get A || false) = ps.get A
    exact Bool.or_false _

/-- C10 witness: toggling ("role", edit) on the create draft succeeds. -/
theorem c10_witness :
    (togglePermission openCreateModal "role" PermAction.edit).isSome = true :=
  c10_module_invariant.2.2.2.2.1 openCreateModal "role" PermAction.edit
    (by decide) (by decide)

end Elora
